import Mathlib

/-!
# Verification of the sshtron arena simulation engine

Shallow embedding of the game core (player movement, trail growth, scoring,
collision handling, session/game lifecycle) translated from the Go source.
Go `float64` arithmetic is modelled over `ℚ`; Go's `int(x)` float-to-int
conversion (truncation toward zero) is modelled by `goInt`.  Go map iteration,
whose order is unspecified, is modelled as iteration over a list in insertion
order; randomness (`rand.Float64`, `rand.Intn`) is modelled as consuming an
explicit stream of pre-drawn values.
-/

namespace Sshtron

/-- Go `int(q)` for a real value: truncation toward zero, i.e. floor for
non-negative values and ceiling for negative ones. -/
def goInt (q : ℚ) : ℤ := if 0 ≤ q then ⌊q⌋ else ⌈q⌉

/-- `type Position struct { X, Y float64 }` -/
structure Position where
  X : ℚ
  Y : ℚ
deriving DecidableEq, Repr

/-- `func PositionFromInt(x, y int) Position` -/
def PositionFromInt (x y : ℤ) : Position := ⟨(x : ℚ), (y : ℚ)⟩

/-- `func (p Position) RoundX() int { return int(p.X + 0.5) }` -/
def Position.RoundX (p : Position) : ℤ := goInt (p.X + 1/2)

/-- `func (p Position) RoundY() int { return int(p.Y + 0.5) }` -/
def Position.RoundY (p : Position) : ℤ := goInt (p.Y + 1/2)

inductive PlayerDirection where
  | PlayerUp
  | PlayerLeft
  | PlayerDown
  | PlayerRight
deriving DecidableEq, Repr

/-- `verticalPlayerSpeed = 0.007` -/
def verticalPlayerSpeed : ℚ := 7/1000

/-- `horizontalPlayerSpeed = 0.01` -/
def horizontalPlayerSpeed : ℚ := 1/100

/-- `playerCountScoreMultiplier = 1.25` -/
def playerCountScoreMultiplier : ℚ := 5/4

/-- `playerTimeout = 15 * time.Second`, in milliseconds. -/
def playerTimeout : ℚ := 15000

def playerUpRune : Char := '⇡'
def playerLeftRune : Char := '⇠'
def playerDownRune : Char := '⇣'
def playerRightRune : Char := '⇢'

def playerTrailHorizontal : Char := '┄'
def playerTrailVertical : Char := '┆'
def playerTrailLeftCornerUp : Char := '╭'
def playerTrailLeftCornerDown : Char := '╰'
def playerTrailRightCornerDown : Char := '╯'
def playerTrailRightCornerUp : Char := '╮'

/-- `color.FgRed` as its ANSI attribute value. -/
def playerRed : ℤ := 31
/-- `color.FgGreen` -/
def playerGreen : ℤ := 32
/-- `color.FgMagenta` -/
def playerMagenta : ℤ := 35
/-- `color.FgCyan` -/
def playerCyan : ℤ := 36

/-- `var playerColors = []color.Attribute{...}` -/
def playerColors : List ℤ := [playerRed, playerGreen, playerMagenta, playerCyan]

/-- `type PlayerTrailSegment struct { Marker rune; Pos Position }` -/
structure PlayerTrailSegment where
  Marker : Char
  Pos : Position
deriving DecidableEq, Repr

/-- `type Player struct {...}` (the back-pointer to the owning session is
dropped; the session owns the player in this model).  Timestamps are
milliseconds as `ℚ`. -/
structure Player where
  CreatedAt : ℚ
  Direction : PlayerDirection
  Marker : Char
  LastAction : ℚ
  Color : ℤ
  Pos : Position
  Trail : List PlayerTrailSegment
  score : ℚ
  HighScore : ℤ
deriving DecidableEq, Repr

/-- The random source: `rand.Float64()` values and `rand.Intn` draws,
pre-drawn as explicit streams. -/
structure Rand where
  floats : List ℚ
  ints : List ℕ
deriving DecidableEq, Repr

/-- `rand.Float64()` consumes one float from the stream (0 once exhausted). -/
def randFloat (rnd : Rand) : ℚ × Rand :=
  match rnd.floats with
  | [] => (0, rnd)
  | r :: rest => (r, { rnd with floats := rest })

/-- `rand.Intn(n)` consumes one integer draw, reduced mod `n`. -/
def randIntn (rnd : Rand) (n : ℕ) : ℕ × Rand :=
  match rnd.ints with
  | [] => (0, rnd)
  | k :: rest => (k % n, { rnd with ints := rest })

/-- A well-formed float stream: every `rand.Float64()` value is in `[0, 1)`. -/
def WfRand (rnd : Rand) : Prop := ∀ r ∈ rnd.floats, 0 ≤ r ∧ r < 1

/-- `func NewPlayer(s *Session, worldWidth, worldHeight int, color color.Attribute) *Player`.
`rand.Seed` is a no-op here; `now` stands for `time.Now()`; the two
`rand.Float64()` draws and the optional `rand.Intn` draw consume the stream
in source order. -/
def NewPlayer (worldWidth worldHeight : ℤ) (color : ℤ) (now : ℚ) (rnd : Rand) :
    Player × Rand :=
  let startX := (randFloat rnd).1 * (worldWidth : ℚ)
  let rnd1 := (randFloat rnd).2
  let startY := (randFloat rnd1).1 * (worldHeight : ℚ)
  let rnd2 := (randFloat rnd1).2
  let color2 :=
    if color < 0 then
      playerColors.getD (randIntn rnd2 playerColors.length).1 0
    else color
  let rnd3 :=
    if color < 0 then (randIntn rnd2 playerColors.length).2 else rnd2
  ({ CreatedAt := now, Direction := .PlayerDown, Marker := playerDownRune,
     LastAction := now, Color := color2, Pos := ⟨startX, startY⟩,
     Trail := [], score := 0, HighScore := 0 }, rnd3)

/-- `func (p *Player) addTrailSegment(pos Position, marker rune)` -/
def Player.addTrailSegment (p : Player) (pos : Position) (marker : Char) : Player :=
  { p with Trail := ⟨marker, pos⟩ :: p.Trail }

/-- `func (p *Player) calculateScore(delta float64, playerCount int) float64` -/
def Player.calculateScore (p : Player) (delta : ℚ) (playerCount : ℤ) : ℚ :=
  let rawIncrement := delta * (((playerCount - 1 : ℤ) : ℚ) * playerCountScoreMultiplier)
  let actualIncrement := rawIncrement / 1000
  p.score + actualIncrement

/-- `func (p *Player) Score() int { return int(p.score) }` -/
def Player.Score (p : Player) : ℤ := goInt p.score

/-- `func (p *Player) didAction()`; `now` stands for `time.Now()`. -/
def Player.didAction (p : Player) (now : ℚ) : Player :=
  { p with LastAction := now }

/-- `func (p *Player) HandleUp()` -/
def Player.HandleUp (p : Player) (now : ℚ) : Player :=
  if p.Direction = .PlayerDown then p
  else ({ p with Direction := .PlayerUp, Marker := playerUpRune }).didAction now

/-- `func (p *Player) HandleLeft()` -/
def Player.HandleLeft (p : Player) (now : ℚ) : Player :=
  if p.Direction = .PlayerRight then p
  else ({ p with Direction := .PlayerLeft, Marker := playerLeftRune }).didAction now

/-- `func (p *Player) HandleDown()` -/
def Player.HandleDown (p : Player) (now : ℚ) : Player :=
  if p.Direction = .PlayerUp then p
  else ({ p with Direction := .PlayerDown, Marker := playerDownRune }).didAction now

/-- `func (p *Player) HandleRight()` -/
def Player.HandleRight (p : Player) (now : ℚ) : Player :=
  if p.Direction = .PlayerLeft then p
  else ({ p with Direction := .PlayerRight, Marker := playerRightRune }).didAction now

/-- The movement `switch p.Direction` at the top of `Player.Update`. -/
def Player.move (p : Player) (delta : ℚ) : Player :=
  match p.Direction with
  | .PlayerUp => { p with Pos := ⟨p.Pos.X, p.Pos.Y - verticalPlayerSpeed * delta⟩ }
  | .PlayerLeft => { p with Pos := ⟨p.Pos.X - horizontalPlayerSpeed * delta, p.Pos.Y⟩ }
  | .PlayerDown => { p with Pos := ⟨p.Pos.X, p.Pos.Y + verticalPlayerSpeed * delta⟩ }
  | .PlayerRight => { p with Pos := ⟨p.Pos.X + horizontalPlayerSpeed * delta, p.Pos.Y⟩ }

/-- The body of the `if endX != startX || endY != startY` block of
`Player.Update` (`p` is the already-moved player).  Go's `&&` binds tighter
than `||`, so in each corner `case` the `lastSeg != nil` guard applies only to
the first disjunct; when the trail is empty, `lastSegX` and `lastSegY` are the
`int` zero values `0`, exactly as in `var lastSegX, lastSegY int`. -/
def Player.addTrail (p : Player) (startX startY : ℤ) : Player :=
  let endX := p.Pos.RoundX
  let endY := p.Pos.RoundY
  let hasLast : Bool := !p.Trail.isEmpty
  let lastSegX : ℤ := match p.Trail with | [] => 0 | seg :: _ => seg.Pos.RoundX
  let lastSegY : ℤ := match p.Trail with | [] => 0 | seg :: _ => seg.Pos.RoundY
  let pos := PositionFromInt startX startY
  if (hasLast = true ∧ p.Direction = .PlayerRight ∧ lastSegX < endX ∧ endY < lastSegY) ∨
     (p.Direction = .PlayerDown ∧ endX < lastSegX ∧ lastSegY < endY) then
    p.addTrailSegment pos playerTrailLeftCornerUp
  else if (hasLast = true ∧ p.Direction = .PlayerUp ∧ lastSegX < endX ∧ endY < lastSegY) ∨
     (p.Direction = .PlayerLeft ∧ endX < lastSegX ∧ lastSegY < endY) then
    p.addTrailSegment pos playerTrailRightCornerDown
  else if (hasLast = true ∧ p.Direction = .PlayerDown ∧ lastSegX < endX ∧ lastSegY < endY) ∨
     (p.Direction = .PlayerLeft ∧ endX < lastSegX ∧ endY < lastSegY) then
    p.addTrailSegment pos playerTrailRightCornerUp
  else if (hasLast = true ∧ p.Direction = .PlayerRight ∧ lastSegX < endX ∧ lastSegY < endY) ∨
     (p.Direction = .PlayerUp ∧ endX < lastSegX ∧ endY < lastSegY) then
    p.addTrailSegment pos playerTrailLeftCornerDown
  else if endX = startX ∧ endY < startY then
    p.addTrailSegment pos playerTrailVertical
  else if endX < startX ∧ endY = startY then
    p.addTrailSegment pos playerTrailHorizontal
  else if endX = startX ∧ startY < endY then
    p.addTrailSegment pos playerTrailVertical
  else if startX < endX ∧ endY = startY then
    p.addTrailSegment pos playerTrailHorizontal
  else p

/-- `type Session struct { c io.ReadWriteCloser; Player *Player }`; the network
stream is dropped, the session owns its player. -/
structure Session where
  Player : Player
deriving DecidableEq, Repr

/-- `type Game struct {...}`; the `Redraw` channel is dropped, the session set
(a Go map keyed by pointer) is a list in insertion order. -/
structure Game where
  Name : String
  HighScore : ℤ
  width : ℤ
  height : ℤ
  Sessions : List Session
deriving DecidableEq, Repr

/-- `func (g *Game) players() map[*Player]*Session`, as the list of players of
the game's sessions (one per session). -/
def Game.players (g : Game) : List Player := g.Sessions.map Session.Player

/-- `func (g *Game) WorldWidth() int` -/
def Game.WorldWidth (g : Game) : ℤ := g.width

/-- `func (g *Game) WorldHeight() int` -/
def Game.WorldHeight (g : Game) : ℤ := g.height

/-- `func (g *Game) SessionCount() int` -/
def Game.SessionCount (g : Game) : ℤ := g.Sessions.length

/-- `func (p *Player) Update(g *Game, delta float64)`.  The game argument is
used only for `len(g.players())` in the score computation, as in the source. -/
def Player.Update (p : Player) (g : Game) (delta : ℚ) : Player :=
  let startX := p.Pos.RoundX
  let startY := p.Pos.RoundY
  let p1 := p.move delta
  let p2 :=
    if p1.Pos.RoundX ≠ startX ∨ p1.Pos.RoundY ≠ startY then
      p1.addTrail startX startY
    else p1
  { p2 with score := p2.calculateScore delta (g.players.length : ℤ) }

/-- `func (g *Game) AvailableColors() []color.Attribute`: the palette minus
the colors held by live players.  The source collects the unused keys of a Go
map whose iteration order is unspecified; this model keeps palette order. -/
def Game.AvailableColors (g : Game) : List ℤ :=
  playerColors.filter (fun c => ¬ g.players.any (fun p => p.Color = c))

/-- `func (s *Session) newGame(...)` -/
def Session.newGame (_s : Session) (worldWidth worldHeight : ℤ) (color : ℤ)
    (now : ℚ) (rnd : Rand) : Session × Rand :=
  let (p, rnd) := NewPlayer worldWidth worldHeight color now rnd
  (⟨p⟩, rnd)

/-- `func (s *Session) StartOver(worldWidth, worldHeight int)`: replaces the
session's player by a fresh one with the same color. -/
def Session.StartOver (s : Session) (worldWidth worldHeight : ℤ)
    (now : ℚ) (rnd : Rand) : Session × Rand :=
  s.newGame worldWidth worldHeight s.Player.Color now rnd

/-- `func NewSession(c io.ReadWriteCloser, worldWidth, worldHeight int, color
color.Attribute) *Session`: a fresh session owning a fresh player. -/
def NewSession (worldWidth worldHeight : ℤ) (color : ℤ) (now : ℚ)
    (rnd : Rand) : Session × Rand :=
  let (p, rnd) := NewPlayer worldWidth worldHeight color now rnd
  (⟨p⟩, rnd)

/-- The per-player head of the first loop of `Game.Update`: advance the player
and apply the player high-score update.  (The loop variable `player` keeps
pointing at this object even after a `StartOver` replaces the session's
player.) -/
def advancedPlayer (g : Game) (delta : ℚ) (s : Session) : Player :=
  if (s.Player.Update g delta).Score > (s.Player.Update g delta).HighScore then
    { s.Player.Update g delta with HighScore := (s.Player.Update g delta).Score }
  else s.Player.Update g delta

/-- The out-of-bounds test of `Game.Update` on the advanced player. -/
def outOfBounds (g : Game) (p : Player) : Prop :=
  p.Pos.RoundX < 0 ∨ p.Pos.RoundX ≥ g.WorldWidth ∨
  p.Pos.RoundY < 0 ∨ p.Pos.RoundY ≥ g.WorldHeight

instance (g : Game) (p : Player) : Decidable (outOfBounds g p) := by
  unfold outOfBounds; infer_instance

/-- One session's body in the first loop of `Game.Update`, up to (not
including) the timeout check: advance, update the player high score, and
restart the session's player if out of bounds. -/
def processSession (g : Game) (delta now : ℚ) (s : Session) (rnd : Rand) :
    Session × Rand :=
  if outOfBounds g (advancedPlayer g delta s) then
    Session.StartOver ⟨advancedPlayer g delta s⟩
      g.WorldWidth g.WorldHeight now rnd
  else (⟨advancedPlayer g delta s⟩, rnd)

/-- The trail coordinates a player contributes to `trailCoordMap`. -/
def trailCoords (p : Player) : List (ℤ × ℤ) :=
  p.Trail.map (fun seg => (seg.Pos.RoundX, seg.Pos.RoundY))

/-- The state carried by the first loop of `Game.Update`: the session list so
far, the collected trail coordinates (`trailCoordMap`), the game high score,
the random source, and whether the loop hit the source's early `return`. -/
structure Loop1Result where
  sessions : List Session
  trail : List (ℤ × ℤ)
  highScore : ℤ
  rnd : Rand
  earlyReturn : Bool
deriving DecidableEq, Repr

/-- The first loop of `Game.Update` over the session list: advance every
player, track the game high score, respawn out-of-bounds players, and collect
all trail coordinates.  A timed-out session is removed and the loop — and the
whole `Update` call — returns immediately (`return` in the source), leaving
the remaining sessions untouched; `earlyReturn` records this.  The timeout
test uses the loop's `player` variable, i.e. the advanced player from before
any `StartOver`. -/
def updateLoop1 (g : Game) (delta now : ℚ) :
    List Session → ℤ → Rand → Loop1Result
  | [], hs, rnd => ⟨[], [], hs, rnd, false⟩
  | s :: rest, hs, rnd =>
    let p := advancedPlayer g delta s
    let hs1 := if p.Score > hs then p.Score else hs
    let s' := (processSession g delta now s rnd).1
    let rnd' := (processSession g delta now s rnd).2
    if now - p.LastAction > playerTimeout then
      ⟨rest, [], hs1, rnd', true⟩
    else
      let r := updateLoop1 g delta now rest hs1 rnd'
      ⟨s' :: r.sessions, trailCoords p ++ r.trail, r.highScore, r.rnd,
       r.earlyReturn⟩

/-- The second loop of `Game.Update`: restart every player whose rounded
position is a collected trail coordinate.  The coordinate set is the snapshot
built by the first loop, so the outcome for each session does not depend on
the iteration order. -/
def updateLoop2 (g : Game) (now : ℚ) (trail : List (ℤ × ℤ)) :
    List Session → Rand → List Session × Rand
  | [], rnd => ([], rnd)
  | s :: rest, rnd =>
    let s' :=
      if (s.Player.Pos.RoundX, s.Player.Pos.RoundY) ∈ trail then
        (s.StartOver g.WorldWidth g.WorldHeight now rnd).1
      else s
    let rnd' :=
      if (s.Player.Pos.RoundX, s.Player.Pos.RoundY) ∈ trail then
        (s.StartOver g.WorldWidth g.WorldHeight now rnd).2
      else rnd
    let r := updateLoop2 g now trail rest rnd'
    (s' :: r.1, r.2)

/-- `func (g *Game) Update(delta float64)`: the main game logic loop.  `now`
stands for `time.Now()` during the call and `rnd` feeds the respawn
randomness. -/
def Game.Update (g : Game) (delta now : ℚ) (rnd : Rand) : Game × Rand :=
  let r1 := updateLoop1 g delta now g.Sessions g.HighScore rnd
  let g1 := { g with Sessions := r1.sessions, HighScore := r1.highScore }
  if r1.earlyReturn then (g1, r1.rnd)
  else
    let r2 := updateLoop2 g1 now r1.trail r1.sessions r1.rnd
    ({ g1 with Sessions := r2.1 }, r2.2)

/-- `gameWidth = 78` -/
def gameWidth : ℤ := 78

/-- `gameHeight = 22` -/
def gameHeight : ℤ := 22

/-- `func NewGame(worldWidth, worldHeight int) *Game`; the petname generator
is replaced by an explicit name argument. -/
def NewGame (name : String) (worldWidth worldHeight : ℤ) : Game :=
  { Name := name, HighScore := 0, width := worldWidth, height := worldHeight,
    Sessions := [] }

/-- `func (g *Game) AddSession(s *Session)` (the cursor-hiding write to the
stream is a pure side effect on the connection). -/
def Game.AddSession (g : Game) (s : Session) : Game :=
  { g with Sessions := g.Sessions ++ [s] }

/-- `func (g *Game) RemoveSession(s *Session)`: sessions are identified by
index; an index outside the list models the membership-guard no-op. -/
def Game.RemoveSessionIdx (g : Game) (i : ℕ) : Game :=
  { g with Sessions := g.Sessions.eraseIdx i }

/-- `type GameManager struct { Games map[string]*Game }`, as an association
list in insertion order. -/
structure GameManager where
  Games : List (String × Game)
deriving DecidableEq, Repr

/-- `func (gm *GameManager) getGameWithAvailability() *Game` -/
def GameManager.getGameWithAvailability (gm : GameManager) :
    Option (String × Game) :=
  gm.Games.find? (fun x => 0 < x.2.AvailableColors.length)

/-- `func (gm *GameManager) SessionCount() int` -/
def GameManager.SessionCount (gm : GameManager) : ℤ :=
  (gm.Games.map (fun x => x.2.SessionCount)).sum

/-- `func (gm *GameManager) GameCount() int` -/
def GameManager.GameCount (gm : GameManager) : ℤ := gm.Games.length

/-- The game-selection step at the top of `GameManager.HandleChannel`
(part 000, lines 72–78): an existing game with a free color, or a freshly
created one already entered into the manager's map; `newName` stands for the
generated petname of a fresh game.  Returns (name of the chosen game, the
chosen game as it was before admission, the updated map). -/
def GameManager.pickedGame (gm : GameManager) (newName : String) :
    String × Game × List (String × Game) :=
  match gm.getGameWithAvailability with
  | some (n, g) => (n, g, gm.Games)
  | none =>
    (newName, NewGame newName gameWidth gameHeight,
     gm.Games ++ [(newName, NewGame newName gameWidth gameHeight)])

/-- The game-selection and session-creation part of
`GameManager.HandleChannel` (part 000, lines 71–82): pick a game with an
available color or create a fresh one, build a session on the first available
color (`g.AvailableColors()[0]`), and add it to the game.  The indexing
panics in Go when no color is available, so the result is an `Option`. -/
def GameManager.HandleChannelAdmit (gm : GameManager) (newName : String)
    (now : ℚ) (rnd : Rand) : Option (GameManager × String × Session × Rand) :=
  match (gm.pickedGame newName).2.1.AvailableColors with
  | [] => none
  | c :: _ =>
    some ({ Games := (gm.pickedGame newName).2.2.map
              (fun x => if x.1 = (gm.pickedGame newName).1 then
                ((gm.pickedGame newName).1,
                 (gm.pickedGame newName).2.1.AddSession
                   (NewSession (gm.pickedGame newName).2.1.WorldWidth
                     (gm.pickedGame newName).2.1.WorldHeight c now rnd).1)
               else x) },
          (gm.pickedGame newName).1,
          (NewSession (gm.pickedGame newName).2.1.WorldWidth
            (gm.pickedGame newName).2.1.WorldHeight c now rnd).1,
          (NewSession (gm.pickedGame newName).2.1.WorldWidth
            (gm.pickedGame newName).2.1.WorldHeight c now rnd).2)

/-- The `keyCtrlC, keyEscape` branch of `HandleChannel` (part 000, lines
102–107): if the session's game currently holds exactly one session, the game
is deleted from the manager's map first; then `RemoveSession` runs on the game
(observable through the manager only when the game is still in the map).  The
session is identified by its index `i` in its game `name`. -/
def GameManager.handleQuit (gm : GameManager) (name : String) (i : ℕ) :
    GameManager :=
  match gm.Games.find? (fun x => x.1 = name) with
  | none => gm
  | some (_, g) =>
    if g.SessionCount = 1 then
      { Games := gm.Games.filter (fun x => ¬ x.1 = name) }
    else
      { Games := gm.Games.map
          (fun x => if x.1 = name then (x.1, g.RemoveSessionIdx i) else x) }

/-- One firing of the game's 60 Hz tick for the game `name`, as observed
through the manager: `g.Update` runs with no reference to the manager, so the
map itself is never modified by a tick. -/
def GameManager.tickGame (gm : GameManager) (name : String) (delta now : ℚ)
    (rnd : Rand) : GameManager × Rand :=
  match gm.Games.find? (fun x => x.1 = name) with
  | none => (gm, rnd)
  | some (_, g) =>
    let (g', rnd') := g.Update delta now rnd
    ({ Games := gm.Games.map (fun x => if x.1 = name then (x.1, g') else x) },
     rnd')

/-! ## Concrete instances used by counterexamples and witnesses -/

/-- Two players one cell apart on the same row, heading toward each other. -/
def c1PlayerA : Player :=
  { CreatedAt := 0, Direction := .PlayerRight, Marker := playerRightRune,
    LastAction := 0, Color := playerRed, Pos := ⟨2, 5⟩, Trail := [],
    score := 0, HighScore := 0 }

def c1PlayerB : Player :=
  { CreatedAt := 0, Direction := .PlayerLeft, Marker := playerLeftRune,
    LastAction := 0, Color := playerGreen, Pos := ⟨4, 5⟩, Trail := [],
    score := 0, HighScore := 0 }

/-- A 78×22 game in which, with `delta = 100`, both players move into cell
(3, 5) in the same tick. -/
def c1Game : Game :=
  { Name := "g", HighScore := 0, width := 78, height := 22,
    Sessions := [⟨c1PlayerA⟩, ⟨c1PlayerB⟩] }

/-- A player with an empty trail about to cross from cell (0, 1) to cell
(-1, 1) moving left. -/
def c2Player : Player :=
  { CreatedAt := 0, Direction := .PlayerLeft, Marker := playerLeftRune,
    LastAction := 0, Color := playerRed, Pos := ⟨3/10, 1⟩, Trail := [],
    score := 0, HighScore := 0 }

def c2Game : Game :=
  { Name := "g", HighScore := 0, width := 78, height := 22,
    Sessions := [⟨c2Player⟩] }

/-- A player whose last input was 20 s ago (idle beyond the 15 s timeout). -/
def c3TimedOut : Player :=
  { CreatedAt := 0, Direction := .PlayerDown, Marker := playerDownRune,
    LastAction := -20000, Color := playerRed, Pos := ⟨10, 10⟩, Trail := [],
    score := 0, HighScore := 0 }

/-- A live player standing out of bounds (x = 80 ≥ 78) with a non-empty
trail and non-zero score. -/
def c3OobPlayer : Player :=
  { CreatedAt := 0, Direction := .PlayerRight, Marker := playerRightRune,
    LastAction := 0, Color := playerGreen, Pos := ⟨80, 5⟩,
    Trail := [⟨playerTrailHorizontal, ⟨79, 5⟩⟩], score := 7, HighScore := 0 }

/-- The timed-out session is iterated first, the out-of-bounds one second. -/
def c3Game : Game :=
  { Name := "g", HighScore := 0, width := 78, height := 22,
    Sessions := [⟨c3TimedOut⟩, ⟨c3OobPlayer⟩] }

/-- A second timed-out player, for the C8 scenario. -/
def c8TimedOut : Player :=
  { CreatedAt := 0, Direction := .PlayerUp, Marker := playerUpRune,
    LastAction := -16000, Color := playerMagenta, Pos := ⟨12, 7⟩, Trail := [],
    score := 0, HighScore := 0 }

/-- An in-bounds live player that ought to be advanced by the tick. -/
def c8Alive : Player :=
  { CreatedAt := 0, Direction := .PlayerRight, Marker := playerRightRune,
    LastAction := 0, Color := playerCyan, Pos := ⟨14, 7⟩, Trail := [],
    score := 3, HighScore := 0 }

def c8Game : Game :=
  { Name := "g", HighScore := 0, width := 78, height := 22,
    Sessions := [⟨c8TimedOut⟩, ⟨c8Alive⟩] }

/-- A game whose only session has idle-timed out. -/
def c9Game : Game :=
  { Name := "alpha", HighScore := 0, width := 78, height := 22,
    Sessions := [⟨c3TimedOut⟩] }

def c9Manager : GameManager := { Games := [("alpha", c9Game)] }

/-- A game holding all four palette colors. -/
def c7FullGame : Game :=
  { Name := "f", HighScore := 0, width := 78, height := 22,
    Sessions :=
      [⟨{ c3TimedOut with Color := playerRed }⟩,
       ⟨{ c3TimedOut with Color := playerGreen }⟩,
       ⟨{ c3TimedOut with Color := playerMagenta }⟩,
       ⟨{ c3TimedOut with Color := playerCyan }⟩] }

/-- A game holding only red, so green/magenta/cyan are available. -/
def c7RedGame : Game :=
  { Name := "r", HighScore := 0, width := 78, height := 22,
    Sessions := [⟨{ c3TimedOut with Color := playerRed }⟩] }

/-- A manager whose first game is full and whose second has free colors. -/
def c7Manager : GameManager :=
  { Games := [("f", c7FullGame), ("r", c7RedGame)] }

/-- A player currently heading down (used to witness the handler no-ops). -/
def c5DownPlayer : Player :=
  { CreatedAt := 0, Direction := .PlayerDown, Marker := playerDownRune,
    LastAction := 1, Color := playerCyan, Pos := ⟨6, 6⟩, Trail := [],
    score := 0, HighScore := 0 }

/-- A player about to ride onto its own trail cell (3, 5). -/
def c1wPlayer : Player :=
  { CreatedAt := 0, Direction := .PlayerRight, Marker := playerRightRune,
    LastAction := 0, Color := playerRed, Pos := ⟨2, 5⟩,
    Trail := [⟨playerTrailVertical, ⟨3, 5⟩⟩], score := 0, HighScore := 0 }

def c1wGame : Game :=
  { Name := "g", HighScore := 0, width := 78, height := 22,
    Sessions := [⟨c1wPlayer⟩] }

/-- The session produced for `c1wPlayer` by the first `Game.Update` loop with
`delta = 100`: advanced one cell right, one horizontal segment appended at the
start cell. -/
def c1wLoopSession : Session :=
  ⟨{ CreatedAt := 0, Direction := .PlayerRight, Marker := playerRightRune,
     LastAction := 0, Color := playerRed, Pos := ⟨3, 5⟩,
     Trail := [⟨playerTrailHorizontal, PositionFromInt 2 5⟩,
               ⟨playerTrailVertical, ⟨3, 5⟩⟩],
     score := 0, HighScore := 0 }⟩

/-- A single-session game whose player stands out of bounds and is not idle. -/
def c3wGame : Game :=
  { Name := "g", HighScore := 0, width := 78, height := 22,
    Sessions := [⟨c3OobPlayer⟩] }

/-! ## Basic lemmas on the embedded operations -/

theorem goInt_of_nonneg {q : ℚ} (h : 0 ≤ q) : goInt q = ⌊q⌋ := by
  simp [goInt, h]

theorem goInt_of_neg {q : ℚ} (h : q < 0) : goInt q = ⌈q⌉ := by
  simp [goInt, not_le.mpr h]

theorem outOfBounds_iff (g : Game) (p : Player) :
    outOfBounds g p ↔
      (p.Pos.RoundX < 0 ∨ p.Pos.RoundX ≥ g.WorldWidth ∨
       p.Pos.RoundY < 0 ∨ p.Pos.RoundY ≥ g.WorldHeight) := Iff.rfl

theorem Player.move_score (p : Player) (delta : ℚ) :
    (p.move delta).score = p.score := by
  obtain ⟨ca, d, mk, la, c, pos, tr, sc, hs⟩ := p
  cases d <;> rfl

theorem Player.move_Trail (p : Player) (delta : ℚ) :
    (p.move delta).Trail = p.Trail := by
  obtain ⟨ca, d, mk, la, c, pos, tr, sc, hs⟩ := p
  cases d <;> rfl

theorem Player.move_Color (p : Player) (delta : ℚ) :
    (p.move delta).Color = p.Color := by
  obtain ⟨ca, d, mk, la, c, pos, tr, sc, hs⟩ := p
  cases d <;> rfl

theorem Player.move_LastAction (p : Player) (delta : ℚ) :
    (p.move delta).LastAction = p.LastAction := by
  obtain ⟨ca, d, mk, la, c, pos, tr, sc, hs⟩ := p
  cases d <;> rfl

theorem Player.move_HighScore (p : Player) (delta : ℚ) :
    (p.move delta).HighScore = p.HighScore := by
  obtain ⟨ca, d, mk, la, c, pos, tr, sc, hs⟩ := p
  cases d <;> rfl

theorem Player.addTrail_score (p : Player) (sx sy : ℤ) :
    (p.addTrail sx sy).score = p.score := by
  simp only [Player.addTrail, Player.addTrailSegment]
  repeat' split
  all_goals rfl

theorem Player.addTrail_Color (p : Player) (sx sy : ℤ) :
    (p.addTrail sx sy).Color = p.Color := by
  simp only [Player.addTrail, Player.addTrailSegment]
  repeat' split
  all_goals rfl

theorem Player.addTrail_LastAction (p : Player) (sx sy : ℤ) :
    (p.addTrail sx sy).LastAction = p.LastAction := by
  simp only [Player.addTrail, Player.addTrailSegment]
  repeat' split
  all_goals rfl

theorem Player.addTrail_HighScore (p : Player) (sx sy : ℤ) :
    (p.addTrail sx sy).HighScore = p.HighScore := by
  simp only [Player.addTrail, Player.addTrailSegment]
  repeat' split
  all_goals rfl

theorem Player.addTrail_Pos (p : Player) (sx sy : ℤ) :
    (p.addTrail sx sy).Pos = p.Pos := by
  simp only [Player.addTrail, Player.addTrailSegment]
  repeat' split
  all_goals rfl

theorem Player.addTrail_Trail_cases (p : Player) (sx sy : ℤ) :
    (p.addTrail sx sy).Trail = p.Trail ∨
      ∃ m, (p.addTrail sx sy).Trail = ⟨m, PositionFromInt sx sy⟩ :: p.Trail := by
  simp only [Player.addTrail, Player.addTrailSegment]
  repeat' split
  all_goals first
    | exact Or.inl rfl
    | exact Or.inr ⟨_, rfl⟩

theorem Player.update_Pos (p : Player) (g : Game) (delta : ℚ) :
    (p.Update g delta).Pos = (p.move delta).Pos := by
  simp only [Player.Update]
  split <;> simp [Player.addTrail_Pos]

theorem Player.update_score (p : Player) (g : Game) (delta : ℚ) :
    (p.Update g delta).score
      = p.score + delta * ((((g.players.length : ℤ) - 1 : ℤ) : ℚ)
          * playerCountScoreMultiplier) / 1000 := by
  simp only [Player.Update, Player.calculateScore]
  split <;> simp [Player.addTrail_score, Player.move_score]

theorem Player.update_Color (p : Player) (g : Game) (delta : ℚ) :
    (p.Update g delta).Color = p.Color := by
  simp only [Player.Update]
  split <;> simp [Player.addTrail_Color, Player.move_Color]

theorem Player.update_LastAction (p : Player) (g : Game) (delta : ℚ) :
    (p.Update g delta).LastAction = p.LastAction := by
  simp only [Player.Update]
  split <;> simp [Player.addTrail_LastAction, Player.move_LastAction]

theorem Player.update_HighScore (p : Player) (g : Game) (delta : ℚ) :
    (p.Update g delta).HighScore = p.HighScore := by
  simp only [Player.Update]
  split <;> simp [Player.addTrail_HighScore, Player.move_HighScore]

theorem Player.update_Trail_cases (p : Player) (g : Game) (delta : ℚ) :
    (p.Update g delta).Trail = p.Trail ∨
      ∃ m, (p.Update g delta).Trail
        = ⟨m, PositionFromInt p.Pos.RoundX p.Pos.RoundY⟩ :: p.Trail := by
  simp only [Player.Update]
  split
  · have h := Player.addTrail_Trail_cases (p.move delta) p.Pos.RoundX p.Pos.RoundY
    rcases h with h | ⟨m, h⟩
    · exact Or.inl (by simp [h, Player.move_Trail])
    · exact Or.inr ⟨m, by simp [h, Player.move_Trail]⟩
  · exact Or.inl (by simp [Player.move_Trail])

theorem Player.update_Trail_of_cell_eq (p : Player) (g : Game) (delta : ℚ)
    (hx : (p.move delta).Pos.RoundX = p.Pos.RoundX)
    (hy : (p.move delta).Pos.RoundY = p.Pos.RoundY) :
    (p.Update g delta).Trail = p.Trail := by
  simp only [Player.Update]
  rw [if_neg]
  · simp [Player.move_Trail]
  · simp [hx, hy]

/-! ## Random-source and respawn lemmas -/

theorem randFloat_val_wf {rnd : Rand} (h : WfRand rnd) :
    0 ≤ (randFloat rnd).1 ∧ (randFloat rnd).1 < 1 := by
  unfold randFloat
  cases hr : rnd.floats with
  | nil => norm_num
  | cons r rest =>
    simp only []
    exact h r (by rw [hr]; exact List.mem_cons_self r rest)

theorem randFloat_wf {rnd : Rand} (h : WfRand rnd) :
    WfRand (randFloat rnd).2 := by
  unfold randFloat
  cases hr : rnd.floats with
  | nil => exact h
  | cons r rest =>
    intro x hx
    simp only [] at hx
    exact h x (by rw [hr]; exact List.mem_cons_of_mem r hx)

theorem randIntn_wf {rnd : Rand} (n : ℕ) (h : WfRand rnd) :
    WfRand (randIntn rnd n).2 := by
  unfold randIntn
  cases hr : rnd.ints with
  | nil => exact h
  | cons k rest =>
    intro x hx
    simp only [] at hx
    exact h x hx

theorem NewPlayer_fields (w hgt c : ℤ) (now : ℚ) (rnd : Rand) (hc : 0 ≤ c) :
    (NewPlayer w hgt c now rnd).1.Trail = [] ∧
    (NewPlayer w hgt c now rnd).1.score = 0 ∧
    (NewPlayer w hgt c now rnd).1.Color = c ∧
    (NewPlayer w hgt c now rnd).1.LastAction = now := by
  simp [NewPlayer, not_lt.mpr hc]

theorem NewPlayer_bounds (w hgt c : ℤ) (now : ℚ) (rnd : Rand)
    (hw : 0 < w) (hh : 0 < hgt) (hwf : WfRand rnd) :
    0 ≤ (NewPlayer w hgt c now rnd).1.Pos.X ∧
    (NewPlayer w hgt c now rnd).1.Pos.X < (w : ℚ) ∧
    0 ≤ (NewPlayer w hgt c now rnd).1.Pos.Y ∧
    (NewPlayer w hgt c now rnd).1.Pos.Y < (hgt : ℚ) := by
  have h1 := randFloat_val_wf hwf
  have h2 := randFloat_val_wf (randFloat_wf hwf)
  have hwq : (0 : ℚ) < (w : ℚ) := by exact_mod_cast hw
  have hhq : (0 : ℚ) < (hgt : ℚ) := by exact_mod_cast hh
  refine ⟨?_, ?_, ?_, ?_⟩ <;> simp only [NewPlayer]
  · exact mul_nonneg h1.1 hwq.le
  · calc (randFloat rnd).1 * (w : ℚ)
        < 1 * (w : ℚ) := mul_lt_mul_of_pos_right h1.2 hwq
      _ = (w : ℚ) := one_mul _
  · exact mul_nonneg h2.1 hhq.le
  · calc (randFloat (randFloat rnd).2).1 * (hgt : ℚ)
        < 1 * (hgt : ℚ) := mul_lt_mul_of_pos_right h2.2 hhq
      _ = (hgt : ℚ) := one_mul _

theorem NewPlayer_wf (w hgt c : ℤ) (now : ℚ) {rnd : Rand} (hwf : WfRand rnd) :
    WfRand (NewPlayer w hgt c now rnd).2 := by
  have h2 := randFloat_wf (randFloat_wf hwf)
  by_cases hc : c < 0 <;>
    simp [NewPlayer, hc, randIntn_wf playerColors.length h2, h2]

theorem StartOver_shape (s : Session) (w hgt : ℤ) (now : ℚ) (rnd : Rand)
    (hc : 0 ≤ s.Player.Color) :
    (s.StartOver w hgt now rnd).1.Player.Trail = [] ∧
    (s.StartOver w hgt now rnd).1.Player.score = 0 ∧
    (s.StartOver w hgt now rnd).1.Player.Color = s.Player.Color := by
  have h := NewPlayer_fields w hgt s.Player.Color now rnd hc
  exact ⟨h.1, h.2.1, h.2.2.1⟩

theorem StartOver_bounds (s : Session) (w hgt : ℤ) (now : ℚ) (rnd : Rand)
    (hw : 0 < w) (hh : 0 < hgt) (hwf : WfRand rnd) :
    0 ≤ (s.StartOver w hgt now rnd).1.Player.Pos.X ∧
    (s.StartOver w hgt now rnd).1.Player.Pos.X < (w : ℚ) ∧
    0 ≤ (s.StartOver w hgt now rnd).1.Player.Pos.Y ∧
    (s.StartOver w hgt now rnd).1.Player.Pos.Y < (hgt : ℚ) :=
  NewPlayer_bounds w hgt s.Player.Color now rnd hw hh hwf

theorem StartOver_wf (s : Session) (w hgt : ℤ) (now : ℚ) {rnd : Rand}
    (hwf : WfRand rnd) : WfRand (s.StartOver w hgt now rnd).2 :=
  NewPlayer_wf w hgt s.Player.Color now hwf

theorem advancedPlayer_LastAction (g : Game) (delta : ℚ) (s : Session) :
    (advancedPlayer g delta s).LastAction = s.Player.LastAction := by
  unfold advancedPlayer
  split <;> simp [Player.update_LastAction]

theorem advancedPlayer_Color (g : Game) (delta : ℚ) (s : Session) :
    (advancedPlayer g delta s).Color = s.Player.Color := by
  unfold advancedPlayer
  split <;> simp [Player.update_Color]

theorem processSession_oob (g : Game) (delta now : ℚ) (s : Session)
    (rnd : Rand) (hoob : outOfBounds g (advancedPlayer g delta s)) :
    processSession g delta now s rnd
      = Session.StartOver ⟨advancedPlayer g delta s⟩
          g.WorldWidth g.WorldHeight now rnd := by
  simp [processSession, hoob]

theorem processSession_inb (g : Game) (delta now : ℚ) (s : Session)
    (rnd : Rand) (h : ¬ outOfBounds g (advancedPlayer g delta s)) :
    processSession g delta now s rnd = (⟨advancedPlayer g delta s⟩, rnd) := by
  simp [processSession, h]

theorem processSession_wf (g : Game) (delta now : ℚ) (s : Session)
    {rnd : Rand} (hwf : WfRand rnd) :
    WfRand (processSession g delta now s rnd).2 := by
  unfold processSession
  split
  · exact StartOver_wf _ _ _ _ hwf
  · exact hwf

/-! ## Loop lemmas for `Game.Update` -/

theorem updateLoop1_spec (g : Game) (delta now : ℚ) :
    ∀ (ss : List Session) (hs : ℤ) (rnd : Rand),
      (∀ s ∈ ss, now - s.Player.LastAction ≤ playerTimeout) →
      (updateLoop1 g delta now ss hs rnd).earlyReturn = false ∧
      (updateLoop1 g delta now ss hs rnd).sessions.length = ss.length ∧
      (updateLoop1 g delta now ss hs rnd).trail
        = ss.flatMap (fun s => trailCoords (advancedPlayer g delta s)) ∧
      (WfRand rnd → WfRand (updateLoop1 g delta now ss hs rnd).rnd)
  | [], hs, rnd, _ => by simp [updateLoop1]
  | s :: rest, hs, rnd, hnt => by
    have hs0 : now - s.Player.LastAction ≤ playerTimeout :=
      hnt s (List.mem_cons_self s rest)
    have hrest := updateLoop1_spec g delta now rest
      (if (advancedPlayer g delta s).Score > hs
       then (advancedPlayer g delta s).Score else hs)
      ((processSession g delta now s rnd).2)
      (fun t ht => hnt t (List.mem_cons_of_mem s ht))
    simp only [updateLoop1]
    rw [if_neg (by rw [advancedPlayer_LastAction]; exact not_lt.mpr hs0)]
    refine ⟨hrest.1, ?_, ?_, ?_⟩
    · simp [hrest.2.1]
    · simp [hrest.2.2.1]
    · intro hwf
      exact hrest.2.2.2 (processSession_wf g delta now s hwf)

theorem updateLoop1_get (g : Game) (delta now : ℚ) :
    ∀ (ss : List Session) (hs : ℤ) (rnd : Rand) (i : ℕ) (s : Session),
      (∀ t ∈ ss, now - t.Player.LastAction ≤ playerTimeout) →
      ss[i]? = some s →
      ∃ rc, (updateLoop1 g delta now ss hs rnd).sessions[i]?
              = some (processSession g delta now s rc).1 ∧
            (WfRand rnd → WfRand rc)
  | [], hs, rnd, i, s, _, hmem => by simp at hmem
  | t :: rest, hs, rnd, i, s, hnt, hmem => by
    have hs0 : now - t.Player.LastAction ≤ playerTimeout :=
      hnt t (List.mem_cons_self t rest)
    simp only [updateLoop1]
    rw [if_neg (by rw [advancedPlayer_LastAction]; exact not_lt.mpr hs0)]
    cases i with
    | zero =>
      refine ⟨rnd, ?_, fun h => h⟩
      simp only [List.getElem?_cons_zero, Option.some.injEq] at hmem
      subst hmem
      simp
    | succ j =>
      obtain ⟨rc, hget, hwf⟩ := updateLoop1_get g delta now rest
        (if (advancedPlayer g delta t).Score > hs
         then (advancedPlayer g delta t).Score else hs)
        ((processSession g delta now t rnd).2) j s
        (fun u hu => hnt u (List.mem_cons_of_mem t hu))
        (by simpa using hmem)
      exact ⟨rc, by simpa using hget,
             fun h => hwf (processSession_wf g delta now t h)⟩

theorem updateLoop2_length (g : Game) (now : ℚ) (trail : List (ℤ × ℤ)) :
    ∀ (ss : List Session) (rnd : Rand),
      (updateLoop2 g now trail ss rnd).1.length = ss.length
  | [], rnd => by simp [updateLoop2]
  | s :: rest, rnd => by
    simp only [updateLoop2]
    simp [updateLoop2_length g now trail rest]

theorem updateLoop2_get (g : Game) (now : ℚ) (trail : List (ℤ × ℤ)) :
    ∀ (ss : List Session) (rnd : Rand) (i : ℕ) (s : Session),
      ss[i]? = some s →
      ∃ rc, (updateLoop2 g now trail ss rnd).1[i]?
              = some (if (s.Player.Pos.RoundX, s.Player.Pos.RoundY) ∈ trail
                      then (s.StartOver g.WorldWidth g.WorldHeight now rc).1
                      else s) ∧
            (WfRand rnd → WfRand rc)
  | [], rnd, i, s, hmem => by simp at hmem
  | t :: rest, rnd, i, s, hmem => by
    simp only [updateLoop2]
    cases i with
    | zero =>
      refine ⟨rnd, ?_, fun h => h⟩
      simp only [List.getElem?_cons_zero, Option.some.injEq] at hmem
      subst hmem
      simp
    | succ j =>
      obtain ⟨rc, hget, hwf⟩ := updateLoop2_get g now trail rest
        (if (t.Player.Pos.RoundX, t.Player.Pos.RoundY) ∈ trail
         then (t.StartOver g.WorldWidth g.WorldHeight now rnd).2
         else rnd) j s (by simpa using hmem)
      refine ⟨rc, by simpa using hget, fun h => hwf ?_⟩
      by_cases hm : (t.Player.Pos.RoundX, t.Player.Pos.RoundY) ∈ trail
      · simpa [hm] using StartOver_wf t g.WorldWidth g.WorldHeight now h
      · simpa [hm] using h

/-- Unfolding of `Game.Update` when no session has idle-timed out: the first
loop runs to completion and the collision pass runs over its output. -/
theorem update_noTimeout_sessions (g : Game) (delta now : ℚ) (rnd : Rand)
    (hnt : ∀ s ∈ g.Sessions, now - s.Player.LastAction ≤ playerTimeout) :
    (g.Update delta now rnd).1.Sessions
      = (updateLoop2
          { g with
              Sessions := (updateLoop1 g delta now g.Sessions g.HighScore rnd).sessions,
              HighScore := (updateLoop1 g delta now g.Sessions g.HighScore rnd).highScore }
          now (updateLoop1 g delta now g.Sessions g.HighScore rnd).trail
          (updateLoop1 g delta now g.Sessions g.HighScore rnd).sessions
          (updateLoop1 g delta now g.Sessions g.HighScore rnd).rnd).1 := by
  have he := (updateLoop1_spec g delta now g.Sessions g.HighScore rnd hnt).1
  simp only [Game.Update]
  rw [if_neg (by rw [he]; simp)]

/-! ## Color and manager lemmas -/

theorem mem_playerColors_nonneg {c : ℤ} (h : c ∈ playerColors) : 0 ≤ c := by
  simp only [playerColors, List.mem_cons, List.not_mem_nil, or_false] at h
  rcases h with h | h | h | h <;> subst h <;>
    norm_num [playerRed, playerGreen, playerMagenta, playerCyan]

theorem availableColors_subset (g : Game) :
    ∀ c ∈ g.AvailableColors, c ∈ playerColors := by
  intro c hc
  exact (List.mem_filter.mp hc).1

theorem availableColors_not_held (g : Game) :
    ∀ c ∈ g.AvailableColors, ∀ p ∈ g.players, p.Color ≠ c := by
  intro c hc p hp he
  have h2 := (List.mem_filter.mp hc).2
  simp only [decide_eq_true_eq] at h2
  exact h2 (List.any_eq_true.mpr ⟨p, hp, by simpa using he⟩)

theorem NewSession_Color (w hgt c : ℤ) (now : ℚ) (rnd : Rand) (hc : 0 ≤ c) :
    (NewSession w hgt c now rnd).1.Player.Color = c :=
  (NewPlayer_fields w hgt c now rnd hc).2.2.1

theorem pickedGame_available (gm : GameManager) (newName : String) :
    (gm.pickedGame newName).2.1.AvailableColors ≠ [] := by
  unfold GameManager.pickedGame
  cases hf : gm.getGameWithAvailability with
  | none =>
    simp only []
    have : (NewGame newName gameWidth gameHeight).AvailableColors
        = playerColors := by
      simp [NewGame, Game.AvailableColors, Game.players]
    rw [this]
    simp [playerColors]
  | some ng =>
    obtain ⟨n, g⟩ := ng
    simp only []
    have hp := List.find?_some hf
    simp only [decide_eq_true_eq] at hp
    intro he
    rw [he] at hp
    simp at hp

theorem mem_availableColors (g : Game) (c : ℤ) :
    c ∈ g.AvailableColors ↔ c ∈ playerColors ∧ ∀ p ∈ g.players, p.Color ≠ c := by
  constructor
  · intro hc
    exact ⟨availableColors_subset g c hc, availableColors_not_held g c hc⟩
  · rintro ⟨h1, h2⟩
    refine List.mem_filter.mpr ⟨h1, ?_⟩
    simp only [decide_eq_true_eq]
    intro hany
    obtain ⟨p, hp, hc⟩ := List.any_eq_true.mp hany
    exact h2 p hp (by simpa using hc)

theorem availableColors_toFinset (g : Game) :
    g.AvailableColors.toFinset
      = playerColors.toFinset \ (g.players.map Player.Color).toFinset := by
  ext c
  simp only [List.mem_toFinset, Finset.mem_sdiff, mem_availableColors,
    List.mem_map]
  constructor
  · rintro ⟨h1, h2⟩
    refine ⟨h1, ?_⟩
    rintro ⟨p, hp, rfl⟩
    exact h2 p hp rfl
  · rintro ⟨h1, h2⟩
    refine ⟨h1, fun p hp he => h2 ⟨p, hp, he⟩⟩

/-! ## Claim C1 -/

/-- C1 (amended): in a tick in which no session idle-times out, a live player
is respawned by the collision pass iff its post-movement rounded cell lies in
the trail-coordinate set built by the first loop.  In particular, when two
players end the tick on the same cell *and that cell carries a trail
segment*, both are respawned regardless of iteration order (the set is a
snapshot); mere co-occupancy of a trail-free cell respawns neither (see the
counterexample).  Here: every session of the first loop's output whose
player's cell is in the trail set ends the call with an empty trail, zero
score and unchanged color. -/
theorem C1_trail_cell_respawn (g : Game) (delta now : ℚ) (rnd : Rand)
    (i : ℕ) (s1 : Session)
    (hnt : ∀ t ∈ g.Sessions, now - t.Player.LastAction ≤ playerTimeout)
    (hmem : (updateLoop1 g delta now g.Sessions g.HighScore rnd).sessions[i]?
              = some s1)
    (hcol : 0 ≤ s1.Player.Color)
    (hcell : (s1.Player.Pos.RoundX, s1.Player.Pos.RoundY)
               ∈ (updateLoop1 g delta now g.Sessions g.HighScore rnd).trail) :
    ∃ p' : Player,
      (g.Update delta now rnd).1.Sessions[i]? = some ⟨p'⟩ ∧
      p'.Trail = [] ∧ p'.score = 0 ∧ p'.Color = s1.Player.Color := by
  rw [update_noTimeout_sessions g delta now rnd hnt]
  obtain ⟨rc, hget, _⟩ := updateLoop2_get
    { g with
        Sessions := (updateLoop1 g delta now g.Sessions g.HighScore rnd).sessions,
        HighScore := (updateLoop1 g delta now g.Sessions g.HighScore rnd).highScore }
    now (updateLoop1 g delta now g.Sessions g.HighScore rnd).trail
    (updateLoop1 g delta now g.Sessions g.HighScore rnd).sessions
    (updateLoop1 g delta now g.Sessions g.HighScore rnd).rnd i s1 hmem
  rw [hget, if_pos hcell]
  refine ⟨_, rfl, ?_, ?_, ?_⟩
  · exact (StartOver_shape s1 _ _ now rc hcol).1
  · exact (StartOver_shape s1 _ _ now rc hcol).2.1
  · exact (StartOver_shape s1 _ _ now rc hcol).2.2

/-- C1 counterexample: in `c1Game` both players move into cell (3, 5) in the
same `Update` call (`delta = 100`), yet neither is respawned — each keeps a
one-segment trail and a positive score, because the collision pass tests
player cells only against *trail* cells (the heads left their segments at the
cells they came from), never against other players' heads. -/
theorem C1_counterexample :
    ((c1Game.Update 100 0 ⟨[], []⟩).1.Sessions.map
       (fun s => (s.Player.Pos.RoundX, s.Player.Pos.RoundY))) = [(3, 5), (3, 5)] ∧
    ((c1Game.Update 100 0 ⟨[], []⟩).1.Sessions.map
       (fun s => s.Player.Trail.length)) = [1, 1] ∧
    ((c1Game.Update 100 0 ⟨[], []⟩).1.Sessions.map
       (fun s => s.Player.score)) = [1/8, 1/8] := by
  norm_num [c1Game, c1PlayerA, c1PlayerB, Game.Update, updateLoop1,
    updateLoop2, processSession, advancedPlayer, outOfBounds_iff,
    Player.Update, Player.move, Player.addTrail, Player.addTrailSegment,
    Player.calculateScore, Player.Score, trailCoords, Game.players,
    Game.WorldWidth, Game.WorldHeight, Session.StartOver, Session.newGame,
    NewPlayer, randFloat, Position.RoundX, Position.RoundY, goInt,
    playerTimeout, verticalPlayerSpeed, horizontalPlayerSpeed,
    playerCountScoreMultiplier, PositionFromInt, Int.ceil_neg]

theorem C1_witness :
    ((c1wGame.Update 100 0 ⟨[], []⟩).1.Sessions[0]?.map
       (fun s => (s.Player.Trail, s.Player.score, s.Player.Color)))
      = some ([], 0, playerRed) := by
  obtain ⟨p', h1, h2, h3, h4⟩ :=
    C1_trail_cell_respawn c1wGame 100 0 ⟨[], []⟩ 0 c1wLoopSession
      (by
        rintro t ht
        simp only [c1wGame, List.mem_singleton] at ht
        subst ht
        norm_num [c1wPlayer, playerTimeout])
      (by
        norm_num [c1wGame, c1wPlayer, c1wLoopSession, updateLoop1,
          processSession, advancedPlayer, outOfBounds_iff, Player.Update,
          Player.move, Player.addTrail, Player.addTrailSegment,
          Player.calculateScore, Player.Score, trailCoords, Game.players,
          Game.WorldWidth, Game.WorldHeight, Position.RoundX, Position.RoundY,
          goInt, playerTimeout, verticalPlayerSpeed, horizontalPlayerSpeed,
          playerCountScoreMultiplier, PositionFromInt])
      (by norm_num [c1wLoopSession, playerRed])
      (by
        norm_num [c1wGame, c1wPlayer, c1wLoopSession, updateLoop1,
          processSession, advancedPlayer, outOfBounds_iff, Player.Update,
          Player.move, Player.addTrail, Player.addTrailSegment,
          Player.calculateScore, Player.Score, trailCoords, Game.players,
          Game.WorldWidth, Game.WorldHeight, Position.RoundX, Position.RoundY,
          goInt, playerTimeout, verticalPlayerSpeed, horizontalPlayerSpeed,
          playerCountScoreMultiplier, PositionFromInt])
  rw [h1]
  simp [h2, h3, h4, c1wLoopSession]

/-! ## Claim C3 -/

/-- C3 (amended): in a call in which no session has idle-timed out, every
session whose advanced player is out of bounds is respawned within that call:
at its index the final session list holds a fresh player with empty trail,
zero score, the same (non-negative) color, and a random continuous position
inside `[0, w) × [0, h)`; the session itself is not removed (the session
count is preserved).  (When some session idle-times out first, the source's
early `return` can skip the out-of-bounds player entirely — see the
counterexample.) -/
theorem C3_oob_respawn (g : Game) (delta now : ℚ) (rnd : Rand)
    (i : ℕ) (s : Session)
    (hnt : ∀ t ∈ g.Sessions, now - t.Player.LastAction ≤ playerTimeout)
    (hmem : g.Sessions[i]? = some s)
    (hoob : outOfBounds g (advancedPlayer g delta s))
    (hcol : 0 ≤ s.Player.Color)
    (hwf : WfRand rnd) (hw : 0 < g.WorldWidth) (hh : 0 < g.WorldHeight) :
    ∃ p' : Player,
      (g.Update delta now rnd).1.Sessions[i]? = some ⟨p'⟩ ∧
      p'.Trail = [] ∧ p'.score = 0 ∧ p'.Color = s.Player.Color ∧
      0 ≤ p'.Pos.X ∧ p'.Pos.X < (g.WorldWidth : ℚ) ∧
      0 ≤ p'.Pos.Y ∧ p'.Pos.Y < (g.WorldHeight : ℚ) ∧
      (g.Update delta now rnd).1.Sessions.length = g.Sessions.length := by
  have hspec := updateLoop1_spec g delta now g.Sessions g.HighScore rnd hnt
  obtain ⟨rc, hget1, hwfc⟩ :=
    updateLoop1_get g delta now g.Sessions g.HighScore rnd i s hnt hmem
  rw [processSession_oob g delta now s rc hoob] at hget1
  have hcadv : (0 : ℤ) ≤ (⟨advancedPlayer g delta s⟩ : Session).Player.Color := by
    simpa [advancedPlayer_Color] using hcol
  have hsh1 := StartOver_shape ⟨advancedPlayer g delta s⟩
    g.WorldWidth g.WorldHeight now rc hcadv
  have hbb1 := StartOver_bounds ⟨advancedPlayer g delta s⟩
    g.WorldWidth g.WorldHeight now rc hw hh (hwfc hwf)
  have hcol1 : (Session.StartOver ⟨advancedPlayer g delta s⟩
      g.WorldWidth g.WorldHeight now rc).1.Player.Color = s.Player.Color := by
    rw [hsh1.2.2]
    simpa using advancedPlayer_Color g delta s
  have hlen : (g.Update delta now rnd).1.Sessions.length
      = g.Sessions.length := by
    rw [update_noTimeout_sessions g delta now rnd hnt, updateLoop2_length]
    exact hspec.2.1
  rw [update_noTimeout_sessions g delta now rnd hnt] at hlen ⊢
  obtain ⟨rc2, hget2, hwf2⟩ := updateLoop2_get
    { g with
        Sessions := (updateLoop1 g delta now g.Sessions g.HighScore rnd).sessions,
        HighScore := (updateLoop1 g delta now g.Sessions g.HighScore rnd).highScore }
    now (updateLoop1 g delta now g.Sessions g.HighScore rnd).trail
    (updateLoop1 g delta now g.Sessions g.HighScore rnd).sessions
    (updateLoop1 g delta now g.Sessions g.HighScore rnd).rnd i _ hget1
  rw [hget2]
  by_cases hm : (((Session.StartOver ⟨advancedPlayer g delta s⟩
        g.WorldWidth g.WorldHeight now rc).1.Player.Pos.RoundX,
      (Session.StartOver ⟨advancedPlayer g delta s⟩
        g.WorldWidth g.WorldHeight now rc).1.Player.Pos.RoundY)
      ∈ (updateLoop1 g delta now g.Sessions g.HighScore rnd).trail)
  · rw [if_pos hm]
    have hc2 : (0 : ℤ) ≤ (Session.StartOver ⟨advancedPlayer g delta s⟩
        g.WorldWidth g.WorldHeight now rc).1.Player.Color := by
      rw [hcol1]; exact hcol
    have hsh2 := StartOver_shape (Session.StartOver ⟨advancedPlayer g delta s⟩
        g.WorldWidth g.WorldHeight now rc).1 g.WorldWidth g.WorldHeight now rc2 hc2
    have hbb2 := StartOver_bounds (Session.StartOver ⟨advancedPlayer g delta s⟩
        g.WorldWidth g.WorldHeight now rc).1 g.WorldWidth g.WorldHeight now rc2 hw hh
      (hwf2 (hspec.2.2.2 hwf))
    exact ⟨_, rfl, hsh2.1, hsh2.2.1, hsh2.2.2.trans hcol1,
      hbb2.1, hbb2.2.1, hbb2.2.2.1, hbb2.2.2.2, hlen⟩
  · rw [if_neg hm]
    exact ⟨_, rfl, hsh1.1, hsh1.2.1, hcol1,
      hbb1.1, hbb1.2.1, hbb1.2.2.1, hbb1.2.2.2, hlen⟩

/-- C3 counterexample: in `c3Game` the first-iterated session has idle-timed
out, so `Update` removes it and returns early; the second session's player
stands at x = 80 (rounded cell 80 ≥ 78, out of bounds throughout the call)
yet survives the call completely untouched — still out of bounds, trail
non-empty, score 7 — contradicting "every live player whose rounded position
lies outside the grid is respawned within that same call". -/
theorem C3_counterexample :
    (c3Game.Update 100 0 ⟨[], []⟩).1.Sessions = [⟨c3OobPlayer⟩] ∧
    c3OobPlayer.Pos.RoundX ≥ c3Game.WorldWidth ∧
    c3OobPlayer.Trail ≠ [] ∧ c3OobPlayer.score ≠ 0 := by
  refine ⟨?_, ?_, by simp [c3OobPlayer], by norm_num [c3OobPlayer]⟩
  · norm_num [c3Game, c3TimedOut, c3OobPlayer, Game.Update, updateLoop1,
      updateLoop2, processSession, advancedPlayer, outOfBounds_iff,
      Player.Update, Player.move, Player.addTrail, Player.addTrailSegment,
      Player.calculateScore, Player.Score, trailCoords, Game.players,
      Game.WorldWidth, Game.WorldHeight, Session.StartOver, Session.newGame,
      NewPlayer, randFloat, Position.RoundX, Position.RoundY, goInt,
      playerTimeout, verticalPlayerSpeed, horizontalPlayerSpeed,
      playerCountScoreMultiplier, PositionFromInt, Int.ceil_neg]
  · norm_num [c3OobPlayer, c3Game, Game.WorldWidth, Position.RoundX, goInt]

theorem C3_witness :
    ((c3wGame.Update 100 0 ⟨[(1:ℚ)/2, (1:ℚ)/3], []⟩).1.Sessions[0]?.map
       (fun s => (s.Player.Trail, s.Player.score, s.Player.Color)))
      = some ([], 0, playerGreen) ∧
    (c3wGame.Update 100 0 ⟨[(1:ℚ)/2, (1:ℚ)/3], []⟩).1.Sessions.length = 1 := by
  obtain ⟨p', h1, h2, h3, h4, h5, h6, h7, h8, h9⟩ :=
    C3_oob_respawn c3wGame 100 0 ⟨[(1:ℚ)/2, (1:ℚ)/3], []⟩ 0 ⟨c3OobPlayer⟩
      (by
        rintro t ht
        simp only [c3wGame, List.mem_singleton] at ht
        subst ht
        norm_num [c3OobPlayer, playerTimeout])
      (by simp [c3wGame])
      (by
        norm_num [c3wGame, c3OobPlayer, advancedPlayer, outOfBounds_iff,
          Player.Update, Player.move, Player.addTrail, Player.addTrailSegment,
          Player.calculateScore, Player.Score, Game.players, Game.WorldWidth,
          Game.WorldHeight, Position.RoundX, Position.RoundY, goInt,
          horizontalPlayerSpeed, playerCountScoreMultiplier, PositionFromInt])
      (by norm_num [c3OobPlayer, playerGreen])
      (by
        intro r hr
        simp only [List.mem_cons, List.not_mem_nil, or_false] at hr
        rcases hr with h | h <;> subst h <;> norm_num)
      (by norm_num [c3wGame, Game.WorldWidth])
      (by norm_num [c3wGame, Game.WorldHeight])
  constructor
  · rw [h1]
    simp [h2, h3, h4, c3OobPlayer]
  · rw [h9]
    rfl

/-! ## Claim C8 -/

/-- C8 (amended): in a call in which no session has idle-timed out, the first
loop hits no early return, keeps every session (same count, in order), feeds
each one exactly once through the per-session body (`processSession`, which
advances the player once with this call's `delta`), and the trail set handed
to the collision pass is exactly the concatenation of all advanced players'
trail coordinates; the collision pass preserves the session count.  (When a
session times out mid-loop, the source's `return` skips the sessions not yet
iterated — see the counterexample.) -/
theorem C8_no_skip (g : Game) (delta now : ℚ) (rnd : Rand)
    (hnt : ∀ s ∈ g.Sessions, now - s.Player.LastAction ≤ playerTimeout) :
    (updateLoop1 g delta now g.Sessions g.HighScore rnd).earlyReturn = false ∧
    (updateLoop1 g delta now g.Sessions g.HighScore rnd).sessions.length
      = g.Sessions.length ∧
    (updateLoop1 g delta now g.Sessions g.HighScore rnd).trail
      = g.Sessions.flatMap (fun s => trailCoords (advancedPlayer g delta s)) ∧
    (∀ (i : ℕ) (s : Session), g.Sessions[i]? = some s → ∃ rc,
        (updateLoop1 g delta now g.Sessions g.HighScore rnd).sessions[i]?
          = some (processSession g delta now s rc).1) ∧
    (g.Update delta now rnd).1.Sessions.length = g.Sessions.length := by
  obtain ⟨he, hlen, htrail, _⟩ :=
    updateLoop1_spec g delta now g.Sessions g.HighScore rnd hnt
  refine ⟨he, hlen, htrail, ?_, ?_⟩
  · intro i s hm
    obtain ⟨rc, h1, _⟩ :=
      updateLoop1_get g delta now g.Sessions g.HighScore rnd i s hnt hm
    exact ⟨rc, h1⟩
  · rw [update_noTimeout_sessions g delta now rnd hnt, updateLoop2_length]
    exact hlen

/-- C8 counterexample: in `c8Game` the first-iterated session has idle-timed
out; `Update` removes it and returns early, so the second session — live at
the start of the call — is neither advanced (its player record is bit-for-bit
unchanged, e.g. its score is still 3 although an update with `delta = 100`
and two live players would add 1/8) nor removed. -/
theorem C8_counterexample :
    c8Game.Sessions.length = 2 ∧
    (c8Game.Update 100 0 ⟨[], []⟩).1.Sessions = [⟨c8Alive⟩] := by
  constructor
  · norm_num [c8Game]
  · norm_num [c8Game, c8TimedOut, c8Alive, Game.Update, updateLoop1,
      updateLoop2, processSession, advancedPlayer, outOfBounds_iff,
      Player.Update, Player.move, Player.addTrail, Player.addTrailSegment,
      Player.calculateScore, Player.Score, trailCoords, Game.players,
      Game.WorldWidth, Game.WorldHeight, Session.StartOver, Session.newGame,
      NewPlayer, randFloat, Position.RoundX, Position.RoundY, goInt,
      playerTimeout, verticalPlayerSpeed, horizontalPlayerSpeed,
      playerCountScoreMultiplier, PositionFromInt, Int.ceil_neg]

theorem C8_witness :
    (updateLoop1 c1wGame 100 0 c1wGame.Sessions c1wGame.HighScore
      ⟨[], []⟩).earlyReturn = false ∧
    (c1wGame.Update 100 0 ⟨[], []⟩).1.Sessions.length
      = c1wGame.Sessions.length := by
  have h := C8_no_skip c1wGame 100 0 ⟨[], []⟩ ?hnt
  · exact ⟨h.1, h.2.2.2.2⟩
  case hnt =>
    rintro t ht
    simp only [c1wGame, List.mem_singleton] at ht
    subst ht
    norm_num [c1wPlayer, playerTimeout]

/-! ## Claim C4 -/

/-- C4 (amended): on each axis the rounded cell is `⌊v + 0.5⌋` whenever
`v + 0.5 ≥ 0` (in particular for every in-bounds position); because Go's
`int(...)` conversion truncates toward zero, for `v + 0.5 < 0` the rounded
cell is `⌈v + 0.5⌉` instead of the floor. -/
theorem C4_round_half_up (p : Position) :
    (0 ≤ p.X + 1/2 → p.RoundX = ⌊p.X + 1/2⌋) ∧
    (p.X + 1/2 < 0 → p.RoundX = ⌈p.X + 1/2⌉) ∧
    (0 ≤ p.Y + 1/2 → p.RoundY = ⌊p.Y + 1/2⌋) ∧
    (p.Y + 1/2 < 0 → p.RoundY = ⌈p.Y + 1/2⌉) :=
  ⟨fun h => goInt_of_nonneg h, fun h => goInt_of_neg h,
   fun h => goInt_of_nonneg h, fun h => goInt_of_neg h⟩

/-- C4 counterexample: at X = -3/4 the code rounds to 0 (truncation toward
zero of -1/4), while `⌊X + 0.5⌋ = -1`, so `RoundX ≠ floor(X + 0.5)` for
negative coordinates. -/
theorem C4_counterexample :
    Position.RoundX ⟨-3/4, 0⟩ ≠ ⌊(⟨-3/4, 0⟩ : Position).X + 1/2⌋ := by
  norm_num [Position.RoundX, goInt, Int.ceil_neg]

theorem C4_witness :
    Position.RoundX ⟨1/2, -7/4⟩ = 1 ∧ Position.RoundY ⟨1/2, -7/4⟩ = -1 := by
  constructor
  · have h := (C4_round_half_up ⟨1/2, -7/4⟩).1 (by norm_num)
    rw [h]; norm_num
  · have h := (C4_round_half_up ⟨1/2, -7/4⟩).2.2.2 (by norm_num)
    rw [h]; norm_num [Int.ceil_neg]

/-! ## Claim C5 -/

/-- C5: calling the handler for the exact opposite of the current direction
is a complete no-op (the player record, hence direction, marker and
last-action timestamp, is unchanged); for any non-opposite direction the
handler sets direction and marker together and stamps the last action with
the current time. -/
theorem C5_opposite_noop (p : Player) (now : ℚ) :
    (p.Direction = .PlayerDown → p.HandleUp now = p) ∧
    (p.Direction = .PlayerUp → p.HandleDown now = p) ∧
    (p.Direction = .PlayerRight → p.HandleLeft now = p) ∧
    (p.Direction = .PlayerLeft → p.HandleRight now = p) ∧
    (p.Direction ≠ .PlayerDown →
      p.HandleUp now
        = { p with Direction := .PlayerUp, Marker := playerUpRune,
                   LastAction := now }) ∧
    (p.Direction ≠ .PlayerUp →
      p.HandleDown now
        = { p with Direction := .PlayerDown, Marker := playerDownRune,
                   LastAction := now }) ∧
    (p.Direction ≠ .PlayerRight →
      p.HandleLeft now
        = { p with Direction := .PlayerLeft, Marker := playerLeftRune,
                   LastAction := now }) ∧
    (p.Direction ≠ .PlayerLeft →
      p.HandleRight now
        = { p with Direction := .PlayerRight, Marker := playerRightRune,
                   LastAction := now }) := by
  refine ⟨fun h => ?_, fun h => ?_, fun h => ?_, fun h => ?_,
          fun h => ?_, fun h => ?_, fun h => ?_, fun h => ?_⟩ <;>
    simp [Player.HandleUp, Player.HandleDown, Player.HandleLeft,
      Player.HandleRight, Player.didAction, h]

theorem C5_witness :
    c5DownPlayer.HandleUp 5 = c5DownPlayer ∧
    (c5DownPlayer.HandleLeft 5).Direction = .PlayerLeft ∧
    (c5DownPlayer.HandleLeft 5).Marker = playerLeftRune ∧
    (c5DownPlayer.HandleLeft 5).LastAction = 5 := by
  have h1 := (C5_opposite_noop c5DownPlayer 5).1 rfl
  have h2 := (C5_opposite_noop c5DownPlayer 5).2.2.2.2.2.2.1 (by decide)
  exact ⟨h1, by rw [h2], by rw [h2], by rw [h2]⟩

/-! ## Claim C6 -/

/-- C6: one player update with elapsed time `delta` (ms) in a game with `n`
live players adds exactly `delta/1000 * (n - 1) * 1.25` to the score; the
score is unchanged when `n = 1`, strictly increases when `delta > 0` and
`n ≥ 2`, and never decreases for `delta ≥ 0` while the player is live
(`n ≥ 1`). -/
theorem C6_score_increment (p : Player) (g : Game) (delta : ℚ) :
    (p.Update g delta).score
      = p.score + delta / 1000 * ((g.players.length : ℚ) - 1)
          * playerCountScoreMultiplier ∧
    (g.players.length = 1 → (p.Update g delta).score = p.score) ∧
    (0 < delta → 2 ≤ g.players.length → p.score < (p.Update g delta).score) ∧
    (0 ≤ delta → 1 ≤ g.players.length → p.score ≤ (p.Update g delta).score) := by
  have heq : (p.Update g delta).score
      = p.score + delta / 1000 * ((g.players.length : ℚ) - 1)
          * playerCountScoreMultiplier := by
    rw [Player.update_score p g delta]; push_cast; ring
  refine ⟨heq, ?_, ?_, ?_⟩
  · intro h1
    rw [heq, h1]
    norm_num
  · intro hd hn
    rw [heq]
    have h2 : (1 : ℚ) ≤ (g.players.length : ℚ) - 1 := by
      have h3 : (2 : ℚ) ≤ (g.players.length : ℚ) := by exact_mod_cast hn
      linarith
    have h4 : 0 < delta / 1000 * ((g.players.length : ℚ) - 1) := by
      have := mul_pos (by positivity : (0:ℚ) < delta / 1000)
        (lt_of_lt_of_le one_pos h2)
      simpa using this
    have h5 : 0 < delta / 1000 * ((g.players.length : ℚ) - 1)
        * playerCountScoreMultiplier :=
      mul_pos h4 (by norm_num [playerCountScoreMultiplier])
    linarith
  · intro hd hn
    rw [heq]
    have h2 : (0 : ℚ) ≤ (g.players.length : ℚ) - 1 := by
      have h3 : (1 : ℚ) ≤ (g.players.length : ℚ) := by exact_mod_cast hn
      linarith
    have h5 : 0 ≤ delta / 1000 * ((g.players.length : ℚ) - 1)
        * playerCountScoreMultiplier :=
      mul_nonneg (mul_nonneg (by positivity) h2)
        (by norm_num [playerCountScoreMultiplier])
    linarith

theorem C6_witness :
    (c1PlayerA.Update c1Game 100).score
      = c1PlayerA.score + 100 / 1000 * ((c1Game.players.length : ℚ) - 1)
          * playerCountScoreMultiplier ∧
    c1PlayerA.score < (c1PlayerA.Update c1Game 100).score := by
  refine ⟨(C6_score_increment c1PlayerA c1Game 100).1, ?_⟩
  exact (C6_score_increment c1PlayerA c1Game 100).2.2.1 (by norm_num)
    (by simp [c1Game, Game.players])

/-! ## Claim C10 -/

/-- C10: one `Player.Update` call appends at most one trail segment; an
appended segment sits at the cell the position rounded to at the start of the
call (hence exact integer coordinates), pushed in front of the unchanged
previous trail; if the rounded cell did not change, the trail is untouched. -/
theorem C10_single_segment (p : Player) (g : Game) (delta : ℚ) :
    ((p.Update g delta).Pos.RoundX = p.Pos.RoundX ∧
       (p.Update g delta).Pos.RoundY = p.Pos.RoundY →
         (p.Update g delta).Trail = p.Trail) ∧
    ((p.Update g delta).Trail = p.Trail ∨
      ∃ m, (p.Update g delta).Trail
        = ⟨m, PositionFromInt p.Pos.RoundX p.Pos.RoundY⟩ :: p.Trail) := by
  constructor
  · rintro ⟨hx, hy⟩
    exact Player.update_Trail_of_cell_eq p g delta
      (by rw [← Player.update_Pos p g delta]; exact hx)
      (by rw [← Player.update_Pos p g delta]; exact hy)
  · exact Player.update_Trail_cases p g delta

theorem C10_witness :
    (c5DownPlayer.Update c1Game 0).Trail = c5DownPlayer.Trail := by
  apply (C10_single_segment c5DownPlayer c1Game 0).1
  constructor <;>
    norm_num [Player.update_Pos, Player.move, c5DownPlayer,
      Position.RoundX, Position.RoundY, goInt, verticalPlayerSpeed]

/-! ## Claim C2 -/

/-- C2: evaluation at the failing input.  `c2Player` has an *empty* trail and
moves left from cell (0, 1) to cell (-1, 1); the code appends the corner
glyph `╯` (not a straight horizontal/vertical rune), because Go's `&&`
binds tighter than `||` and the `lastSeg != nil` guard covers only the first
disjunct of each corner case, leaving the zero values `lastSegX = lastSegY = 0`
to be compared. -/
theorem C2_empty_trail_corner :
    (c2Player.Update c2Game 200).Trail
      = [⟨playerTrailRightCornerDown, PositionFromInt 0 1⟩] ∧
    playerTrailRightCornerDown ≠ playerTrailHorizontal ∧
    playerTrailRightCornerDown ≠ playerTrailVertical := by
  refine ⟨?_, by decide, by decide⟩
  norm_num [c2Player, c2Game, Player.Update, Player.move, Player.addTrail,
    Player.addTrailSegment, Player.calculateScore, Game.players,
    Position.RoundX, Position.RoundY, goInt, horizontalPlayerSpeed,
    PositionFromInt, Int.ceil_neg]
  rw [if_neg (by decide)]

/-! ## Claim C7 -/

/-- C7: `AvailableColors` is exactly the palette minus the set of colors held
by live players; when every live color comes from the palette (true of every
reachable state, since colors are only ever assigned from the palette or from
the available set), it is empty iff the number of distinct held colors equals
the palette size; admission always succeeds on the picked game, draws the new
session's color from that game's currently available set, and therefore never
reuses a color held by a live player of the same game. -/
theorem C7_available_colors (g : Game) (gm : GameManager) (newName : String)
    (now : ℚ) (rnd : Rand) :
    g.AvailableColors.toFinset
      = playerColors.toFinset \ (g.players.map Player.Color).toFinset ∧
    ((∀ p ∈ g.players, p.Color ∈ playerColors) →
      (g.AvailableColors = []
        ↔ (g.players.map Player.Color).dedup.length = playerColors.length)) ∧
    (gm.HandleChannelAdmit newName now rnd).isSome = true ∧
    (∀ res, gm.HandleChannelAdmit newName now rnd = some res →
      res.2.2.1.Player.Color ∈ (gm.pickedGame newName).2.1.AvailableColors ∧
      ∀ p ∈ (gm.pickedGame newName).2.1.players,
        p.Color ≠ res.2.2.1.Player.Color) := by
  refine ⟨availableColors_toFinset g, ?_, ?_, ?_⟩
  · intro hpal
    have hsub : (g.players.map Player.Color).toFinset
        ⊆ playerColors.toFinset := by
      intro c hc
      simp only [List.mem_toFinset, List.mem_map] at hc
      obtain ⟨p, hp, rfl⟩ := hc
      exact List.mem_toFinset.mpr (hpal p hp)
    have hcardP : playerColors.toFinset.card = playerColors.length := by decide
    constructor
    · intro he
      have hempty : g.AvailableColors.toFinset = ∅ := by rw [he]; rfl
      rw [availableColors_toFinset g] at hempty
      have hPsubH := Finset.sdiff_eq_empty_iff_subset.mp hempty
      have heq : (g.players.map Player.Color).toFinset
          = playerColors.toFinset := Finset.Subset.antisymm hsub hPsubH
      calc (g.players.map Player.Color).dedup.length
          = (g.players.map Player.Color).toFinset.card :=
            (List.card_toFinset _).symm
        _ = playerColors.toFinset.card := by rw [heq]
        _ = playerColors.length := hcardP
    · intro hlen
      have hcards : playerColors.toFinset.card
          ≤ (g.players.map Player.Color).toFinset.card := by
        rw [hcardP, List.card_toFinset, hlen]
      have heq := Finset.eq_of_subset_of_card_le hsub hcards
      have hsdiff : playerColors.toFinset
          \ (g.players.map Player.Color).toFinset = ∅ := by
        rw [heq]
        simp
      have hempty : g.AvailableColors.toFinset = ∅ := by
        rw [availableColors_toFinset g]
        exact hsdiff
      simpa using hempty
  · unfold GameManager.HandleChannelAdmit
    cases hA : (gm.pickedGame newName).2.1.AvailableColors with
    | nil => exact absurd hA (pickedGame_available gm newName)
    | cons c cs => rfl
  · intro res hres
    unfold GameManager.HandleChannelAdmit at hres
    cases hA : (gm.pickedGame newName).2.1.AvailableColors with
    | nil => exact absurd hA (pickedGame_available gm newName)
    | cons c cs =>
      rw [hA] at hres
      simp only [Option.some.injEq] at hres
      subst hres
      have hcmem : c ∈ (gm.pickedGame newName).2.1.AvailableColors := by
        rw [hA]
        exact List.mem_cons_self c cs
      have hc0 : 0 ≤ c :=
        mem_playerColors_nonneg (availableColors_subset _ c hcmem)
      constructor
      · rw [NewSession_Color _ _ c now rnd hc0]
        exact List.mem_cons_self c cs
      · intro p hp
        rw [NewSession_Color _ _ c now rnd hc0]
        exact availableColors_not_held _ c hcmem p hp

theorem C7_witness :
    c7FullGame.AvailableColors = [] ∧
    c7RedGame.AvailableColors ≠ [] ∧
    (c7Manager.HandleChannelAdmit "new" 0 ⟨[], []⟩).isSome = true := by
  refine ⟨?_, ?_, (C7_available_colors c7RedGame c7Manager "new" 0 ⟨[], []⟩).2.2.1⟩
  · apply ((C7_available_colors c7FullGame c7Manager "new" 0 ⟨[], []⟩).2.1 ?_).mpr
    · decide
    · intro p hp
      simp only [c7FullGame, Game.players, List.map_cons, List.map_nil,
        List.mem_cons, List.not_mem_nil, or_false] at hp
      rcases hp with h | h | h | h <;> subst h <;> decide
  · intro he
    have h := ((C7_available_colors c7RedGame c7Manager "new" 0 ⟨[], []⟩).2.1
      ?_).mp he
    · revert h
      decide
    · intro p hp
      simp only [c7RedGame, Game.players, List.map_cons, List.map_nil,
        List.mem_cons, List.not_mem_nil, or_false] at hp
      subst hp
      decide

/-! ## Claim C9 -/

/-- C9 (amended): only the interrupt/quit key path removes an emptied game
from the manager's map: when the quit handler runs for a session of a game
currently holding exactly one session, the game's entry is deleted from the
map before the session is removed, so the name no longer resolves.  The
idle-timeout eviction inside `Game.Update`, by contrast, never touches the
manager's map, so a game emptied by a timeout eviction stays in the map (see
the counterexample). -/
theorem C9_quit_removes_empty_game (gm : GameManager) (name : String) (i : ℕ)
    (ng : String × Game)
    (hfind : gm.Games.find? (fun x => x.1 = name) = some ng)
    (hone : ng.2.SessionCount = 1) :
    (gm.handleQuit name i).Games.find? (fun x => x.1 = name) = none := by
  unfold GameManager.handleQuit
  rw [hfind]
  obtain ⟨n, g2⟩ := ng
  simp only []
  rw [if_pos hone]
  apply List.find?_eq_none.mpr
  intro x hx
  have h2 := (List.mem_filter.mp hx).2
  simpa using h2

/-- C9 counterexample: the only session of game "alpha" has idle-timed out;
the tick (`Game.Update` via the manager) evicts it, emptying the game, but
the game remains in the manager's map with zero sessions — an empty game *is*
retained after a timeout-eviction removal. -/
theorem C9_counterexample :
    ((c9Manager.tickGame "alpha" 100 0 ⟨[], []⟩).1.Games.map Prod.fst)
      = ["alpha"] ∧
    ((c9Manager.tickGame "alpha" 100 0 ⟨[], []⟩).1.Games.map
       (fun x => x.2.Sessions)) = [[]] := by
  constructor <;>
    norm_num [c9Manager, c9Game, c3TimedOut, GameManager.tickGame,
      Game.Update, updateLoop1, updateLoop2, processSession, advancedPlayer,
      outOfBounds_iff, Player.Update, Player.move, Player.addTrail,
      Player.addTrailSegment, Player.calculateScore, Player.Score,
      trailCoords, Game.players, Game.WorldWidth, Game.WorldHeight,
      Session.StartOver, Session.newGame, NewPlayer, randFloat,
      Position.RoundX, Position.RoundY, goInt, playerTimeout,
      verticalPlayerSpeed, horizontalPlayerSpeed,
      playerCountScoreMultiplier, PositionFromInt, Int.ceil_neg,
      List.find?]

theorem C9_witness :
    (c9Manager.handleQuit "alpha" 0).Games.find? (fun x => x.1 = "alpha")
      = none := by
  apply C9_quit_removes_empty_game c9Manager "alpha" 0 ("alpha", c9Game)
  · simp [c9Manager, List.find?]
  · simp [c9Game, Game.SessionCount]

end Sshtron
